import Mathlib

/-!
# Task tracker CLI: a shallow embedding of `main.go`

The program loads a collection of tasks from `todolist.json`, applies one
command given on the command line, and writes the collection back.

Modelling choices, each tied to the Go source:

* `map[int]Task` is a finite map `Finmap` from `Int` to `Task`.  A Go map value
  may be `nil` (the zero value of `ToDoList`, or what `json.Unmarshal` leaves
  when the document has no `tasks` member); reading a nil map behaves like
  reading an empty one, writing to it panics.  `ToDoList.Tasks` is therefore an
  `Option`, `none` being the nil map.
* Go's `int` is 64 bits wide.  Keys are modelled as `Int`; the only arithmetic
  on them is the `i++` of the scan in `Add`, which stops at the first free
  identifier counted from 1 and so never gets near `2^63` for a map that fits
  in memory.  The range check of `strconv.Atoi` is modelled explicitly.
* `time.Time` is an instant counted in nanoseconds from Go's zero time, so the
  zero value of `Task` has both timestamps `0`.  Every call of `time.Now()` is
  a separate reading of the clock and is passed in explicitly.
* `for id := range t.Tasks` visits the keys in an order chosen by the runtime;
  the order is passed in explicitly as a list of keys.
* Standard output is the list of chunks written, one per `Printf`/`Println`.
* `log.Fatal*` ends the run with a fatal error, a runtime panic ends it with a
  panic; in both cases nothing after the failing statement is executed.
* `json.Marshal`, `json.Unmarshal`, `os.ReadFile` and `os.WriteFile` are
  library calls; what they return is part of the `World` a run is given.
* Go strings are byte sequences; command-line arguments and descriptions are
  modelled as `String`, that is, as well-formed Unicode text.
-/

namespace TaskTracker

/-! ## Data model (main.go, lines 12-29) -/

/-- An instant, in nanoseconds since the zero value of `time.Time`. -/
abbrev Time := Int

/-- `type TaskStatus int`. -/
abbrev TaskStatus := Int

/-- `Todo TaskStatus = iota + 1`. -/
def Todo : TaskStatus := 1

/-- Second constant of the block: `InProgress`. -/
def InProgress : TaskStatus := 2

/-- Third constant of the block: `Done`. -/
def Done : TaskStatus := 3

/-- `type Task struct`. -/
structure Task where
  Description : String
  Status : TaskStatus
  CreatedAt : Time
  UpdatedAt : Time
deriving DecidableEq, Repr

/-- Zero value of `Task`, which a map read yields for a missing key. -/
def Task.zero : Task := ⟨"", 0, 0, 0⟩

/-- An initialised `map[int]Task`. -/
abbrev TaskMap := Finmap (fun _ : Int => Task)

/-- `type ToDoList struct { Tasks map[int]Task }`; `none` is the nil map. -/
structure ToDoList where
  Tasks : Option TaskMap
deriving DecidableEq

namespace ToDoList

/-- Key set of the map (empty for the nil map). -/
def keys (t : ToDoList) : Finset Int :=
  match t.Tasks with
  | none => ∅
  | some m => m.keys

/-- Map read `t.Tasks[id]`: the stored task, or the zero value. -/
def get (t : ToDoList) (id : Int) : Task :=
  match t.Tasks with
  | none => Task.zero
  | some m => (m.lookup id).getD Task.zero

/-- Second result of `_, exists := t.Tasks[id]`. -/
def has (t : ToDoList) (id : Int) : Bool :=
  decide (id ∈ t.keys)

/-- The entry stored under `id`, if there is one (`none` on the nil map). -/
def lookup (t : ToDoList) (id : Int) : Option Task :=
  match t.Tasks with
  | none => none
  | some m => m.lookup id

/-- Map write `t.Tasks[id] = v`; panics on the nil map. -/
def set (t : ToDoList) (id : Int) (v : Task) : Except String ToDoList :=
  match t.Tasks with
  | none => .error "assignment to entry in nil map"
  | some m => .ok ⟨some (m.insert id v)⟩

/-- The loop `for i := ...; ; i++ { if _, exists := t.Tasks[i]; !exists { newID = i; break } }`
of `Add`, started at `i`: the value `newID` receives. -/
def scan (t : ToDoList) (i : Int) : Int :=
  if h : t.has i = true then scan t (i + 1) else i
termination_by (t.keys.filter (fun k => i ≤ k)).card
decreasing_by
  have hi : i ∈ t.keys := by simpa [has] using h
  apply Finset.card_lt_card
  rw [Finset.ssubset_iff_of_subset]
  · exact ⟨i, by simp [hi], by simp⟩
  · intro k
    simp only [Finset.mem_filter]
    rintro ⟨h1, h2⟩
    exact ⟨h1, by omega⟩

/-- `func (t *ToDoList) Add(description string)`.  `now₁` and `now₂` are the
readings of the two `time.Now()` calls of the composite literal, in source
order.  Returns the collection and the text printed. -/
def Add (t : ToDoList) (description : String) (now₁ now₂ : Time) :
    Except String (ToDoList × String) :=
  let newID := t.scan 1
  match t.set newID ⟨description, Todo, now₁, now₂⟩ with
  | .error e => .error e
  | .ok t' => .ok (t', "Task added successfully (ID: " ++ toString newID ++ ")\n")

/-- `func (t *ToDoList) Update(id int, description string)`. -/
def Update (t : ToDoList) (id : Int) (description : String) (now : Time) :
    Except String ToDoList :=
  t.set id ⟨description, (t.get id).Status, (t.get id).CreatedAt, now⟩

/-- `func (t *ToDoList) Delete(id int)`; `delete` on a nil map does nothing. -/
def Delete (t : ToDoList) (id : Int) : ToDoList :=
  match t.Tasks with
  | none => t
  | some m => ⟨some (m.erase id)⟩

/-- `func (t *ToDoList) MarkInProgress(id int)`. -/
def MarkInProgress (t : ToDoList) (id : Int) (now : Time) : Except String ToDoList :=
  t.set id ⟨(t.get id).Description, InProgress, (t.get id).CreatedAt, now⟩

/-- `func (t *ToDoList) MarkDone(id int)`. -/
def MarkDone (t : ToDoList) (id : Int) (now : Time) : Except String ToDoList :=
  t.set id ⟨(t.get id).Description, Done, (t.get id).CreatedAt, now⟩

/-- `fmt.Println(s)` writes `s` and a newline. -/
def println (s : String) : String := s ++ "\n"

end ToDoList

/-- `func (t *ToDoList) ListDone()`. -/
def ToDoList.ListDone (t : ToDoList) (order : List Int) : List String :=
  (order.filter (fun id => (t.get id).Status == Done)).map
    (fun id => ToDoList.println (t.get id).Description)

/-- `func (t *ToDoList) ListToDo()`. -/
def ToDoList.ListToDo (t : ToDoList) (order : List Int) : List String :=
  (order.filter (fun id => (t.get id).Status == Todo)).map
    (fun id => ToDoList.println (t.get id).Description)

/-- `func (t *ToDoList) ListInProgress()`. -/
def ToDoList.ListInProgress (t : ToDoList) (order : List Int) : List String :=
  (order.filter (fun id => (t.get id).Status == InProgress)).map
    (fun id => ToDoList.println (t.get id).Description)

/-- `func (t *ToDoList) List()`; `order` is the sequence of keys the `range`
loop visits.  (Placed after its three siblings only because its name shadows
the list type inside this namespace.) -/
def ToDoList.List (t : ToDoList) (order : List Int) : List String :=
  order.map (fun id => ToDoList.println (t.get id).Description)

/-! ## Command line and storage (main.go, lines 89-204) -/

/-- Value of a non-empty run of ASCII decimal digits; `none` for the empty
string and for any other character. -/
def digits (cs : List Char) : Option Nat :=
  if cs.isEmpty then none
  else cs.foldl
    (fun acc c => acc.bind fun n => if c.isDigit then some (n * 10 + (c.toNat - 48)) else none)
    (some 0)

/-- Go's `strconv.Atoi` on a 64-bit platform, by its documented behaviour: an
optional sign followed by one or more decimal digits, rejected (`none`) on any
other syntax and when the value lies outside `[-2^63, 2^63 - 1]`. -/
def Atoi (s : String) : Option Int :=
  match s.toList with
  | '-' :: cs => (digits cs).bind fun n => if n ≤ 2 ^ 63 then some (-(n : Int)) else none
  | '+' :: cs => (digits cs).bind fun n => if n < 2 ^ 63 then some (n : Int) else none
  | cs => (digits cs).bind fun n => if n < 2 ^ 63 then some (n : Int) else none

/-- How a run ends: normally, through `log.Fatal*` (message, exit status 1),
or through a runtime panic (exit status 2). -/
inductive Exit where
  | ok
  | fatal (msg : String)
  | panic (msg : String)
deriving DecidableEq, Repr

/-- State after the command switch: how it ended, the in-memory collection at
that point, and the chunks written to standard output. -/
structure Dispatched where
  exit : Exit
  toDoList : ToDoList
  stdout : List String

/-- Wrap the result of a mutating method: a panic ends the run with the
collection as it was. -/
def afterCall (t : ToDoList) (r : Except String ToDoList) : Dispatched :=
  match r with
  | .ok t' => ⟨.ok, t', []⟩
  | .error e => ⟨.panic e, t, []⟩

/-- Lines 114-192 of `main`: the check `len(os.Args) == 1` and the command
switch.  `argv` is `os.Args[1:]`, so `len(os.Args) - 2` is `ops.length`;
`now n` is the reading of the `n`-th call of `time.Now()` in the run and
`order` the key order of the `range` loop. -/
def dispatch (t : ToDoList) (argv : List String) (now : Nat → Time) (order : List Int) :
    Dispatched :=
  match argv with
  | [] => ⟨.fatal "Write a command\n", t, []⟩
  | cmd :: ops =>
    if cmd = "add" then
      match ops with
      | [description] =>
        match t.Add description (now 0) (now 1) with
        | .ok (t', out) => ⟨.ok, t', [out]⟩
        | .error e => ⟨.panic e, t, []⟩
      | _ => ⟨.fatal ("add: Invalid number of arguments: " ++ toString ops.length ++
                ", expected: 1\n"), t, []⟩
    else if cmd = "update" then
      match ops with
      | [arg, description] =>
        match Atoi arg with
        | none => ⟨.fatal ("update: Invalid id: " ++ arg ++ "\n"), t, []⟩
        | some id =>
          if t.has id then afterCall t (t.Update id description (now 0))
          else ⟨.fatal ("update: Id does not exist: " ++ toString id ++ "\n"), t, []⟩
      | _ => ⟨.fatal ("update: Invalid number of arguments: " ++ toString ops.length ++
                ", expected: 2\n"), t, []⟩
    else if cmd = "delete" then
      match ops with
      | [arg] =>
        match Atoi arg with
        | none => ⟨.fatal ("delete: Invalid id: " ++ arg ++ "\n"), t, []⟩
        | some id =>
          if t.has id then ⟨.ok, t.Delete id, []⟩
          else ⟨.fatal ("delete: Id does not exist: " ++ toString id ++ "\n"), t, []⟩
      | _ => ⟨.fatal ("delete: Invalid number of arguments: " ++ toString ops.length ++
                ", expected: 1\n"), t, []⟩
    else if cmd = "mark-in-progress" then
      match ops with
      | [arg] =>
        match Atoi arg with
        | none => ⟨.fatal ("mark-in-progress: Invalid id: " ++ arg ++ "\n"), t, []⟩
        | some id =>
          if t.has id then afterCall t (t.MarkInProgress id (now 0))
          else ⟨.fatal ("mark-in-progress: Id does not exist: " ++ toString id ++ "\n"), t, []⟩
      | _ => ⟨.fatal ("mark-in-progress: Invalid number of arguments: " ++
                toString ops.length ++ ", expected: 1\n"), t, []⟩
    else if cmd = "mark-done" then
      match ops with
      | [arg] =>
        match Atoi arg with
        | none => ⟨.fatal ("mark-done: Invalid id: " ++ arg ++ "\n"), t, []⟩
        | some id =>
          if t.has id then afterCall t (t.MarkDone id (now 0))
          else ⟨.fatal ("mark-done: Id does not exist: " ++ toString id ++ "\n"), t, []⟩
      | _ => ⟨.fatal ("mark-done: Invalid number of arguments: " ++ toString ops.length ++
                ", expected: 1\n"), t, []⟩
    else if cmd = "list" then
      match ops with
      | [] => ⟨.ok, t, t.List order⟩
      | [filter] =>
        if filter = "done" then ⟨.ok, t, t.ListDone order⟩
        else if filter = "todo" then ⟨.ok, t, t.ListToDo order⟩
        else if filter = "in-progress" then ⟨.ok, t, t.ListInProgress order⟩
        else ⟨.fatal ("Invalid argument: " ++ filter ++ "\n"), t, []⟩
      | _ => ⟨.fatal ("Invalid number of arguments: " ++ toString ops.length ++
                ", expected: 1\n"), t, []⟩
    else ⟨.fatal ("Unknown command: " ++ cmd ++ "\n"), t, []⟩

/-- Result of `os.ReadFile(filename)`. -/
inductive ReadResult where
  | notExist
  | failed (err : String)
  | data (buf : List UInt8)

/-- Everything outside the program that one run observes: the storage file as
`os.ReadFile` sees it, the two `encoding/json` entry points on `ToDoList`
(`Unmarshal` into the zero value), the error of `os.WriteFile` if it fails, the
clock and the iteration order of the map. -/
structure World where
  ReadFile : ReadResult
  Unmarshal : List UInt8 → Except String ToDoList
  Marshal : ToDoList → Except String (List UInt8)
  WriteFile : List UInt8 → Option String
  Now : Nat → Time
  rangeOrder : List Int

/-- Lines 93-112 of `main`: the collection loaded, or the fatal message. -/
def load (w : World) : Except String ToDoList :=
  match w.ReadFile with
  | .failed err => .error ("Error reading file: " ++ err ++ "\n")
  | .notExist => .ok ⟨some ∅⟩
  | .data buf =>
    if buf.length = 0 then .ok ⟨some ∅⟩
    else
      match w.Unmarshal buf with
      | .error err => .error ("Error parsing json: " ++ err ++ "\n")
      | .ok t => .ok t

/-- What one run of the program does to its surroundings: how it ends, what it
writes to standard output, and the buffer handed to `os.WriteFile`, `none`
when the run never reaches that call. -/
structure Outcome where
  exit : Exit
  stdout : List String
  written : Option (List UInt8)

/-- `func main()`: load, dispatch, then marshal and write. -/
def main (w : World) (argv : List String) : Outcome :=
  match load w with
  | .error msg => ⟨.fatal msg, [], none⟩
  | .ok t =>
    let r := dispatch t argv w.Now w.rangeOrder
    match r.exit with
    | .ok =>
      match w.Marshal r.toDoList with
      | .error err => ⟨.fatal (err ++ "\n"), r.stdout, none⟩
      | .ok buf =>
        match w.WriteFile buf with
        | some err => ⟨.fatal (err ++ "\n"), r.stdout, some buf⟩
        | none => ⟨.ok, r.stdout, some buf⟩
    | e => ⟨e, r.stdout, none⟩


/-- The invariant `createdAt <= updatedAt`, for every task of the collection. -/
def ToDoList.Ordered (t : ToDoList) : Prop :=
  ∀ k ∈ t.keys, (t.get k).CreatedAt ≤ (t.get k).UpdatedAt

instance (t : ToDoList) : Decidable t.Ordered := by
  unfold ToDoList.Ordered
  infer_instance

/-- Well-formedness of a collection: every identifier is strictly positive and
every status is one of `Todo` (1), `InProgress` (2), `Done` (3). -/
def ToDoList.WellFormed (t : ToDoList) : Prop :=
  ∀ k ∈ t.keys, 0 < k ∧
    ((t.get k).Status = Todo ∨ (t.get k).Status = InProgress ∨ (t.get k).Status = Done)

instance (t : ToDoList) : Decidable t.WellFormed := by
  unfold ToDoList.WellFormed
  infer_instance

/-! ## Example inputs -/

/-- Example collection with the single task `a`, created and last updated at
instant 10, under identifier 1. -/
def exampleOne : ToDoList := ⟨some (Finmap.insert 1 ⟨"a", Todo, 10, 10⟩ ∅)⟩

/-- Example collection `{1: a/Todo, 2: b/Done, 3: c/InProgress}`. -/
def exampleThree : ToDoList :=
  ⟨some (Finmap.insert 3 ⟨"c", InProgress, 0, 0⟩ (Finmap.insert 2 ⟨"b", Done, 0, 0⟩
    (Finmap.insert 1 ⟨"a", Todo, 0, 0⟩ ∅)))⟩

/-- A run with no storage file: every decoding fails, every write succeeds, the
clock stands at 0. -/
def freshWorld : World :=
  ⟨.notExist, fun _ => .error "unexpected end of JSON input", fun _ => .ok [], fun _ => none,
    fun _ => 0, []⟩

/-- A run whose storage file decodes to `exampleThree` and whose `range` loop
visits the keys in the order 3, 1, 2. -/
def threeWorld : World :=
  ⟨.data [123, 125], fun _ => .ok exampleThree, fun _ => .ok [], fun _ => none,
    fun _ => 0, [3, 1, 2]⟩

/-- A run whose storage file holds the two bytes `\x7b\x7d`, an object without
a `tasks` member: `json.Unmarshal` accepts it and leaves `Tasks` at its zero
value, the nil map.  Every write succeeds, the clock stands at 0. -/
def bracesWorld : World :=
  ⟨.data [123, 125], fun _ => .ok ⟨none⟩, fun _ => .ok [], fun _ => none, fun _ => 0, []⟩

/-- A run with a zero-length storage file, a codec that writes one byte for any
collection, a disk that accepts every write, and the clock at 0. -/
def emptyFileWorld : World :=
  ⟨.data [], fun _ => .error "unexpected end of JSON input", fun _ => .ok [0],
    fun _ => none, fun _ => 0, []⟩

/-! ## Basic facts about the map operations -/

theorem has_iff (t : ToDoList) (id : Int) : t.has id = true ↔ id ∈ t.keys := by
  simp [ToDoList.has]

theorem keys_some (m : TaskMap) (id : Int) : id ∈ (ToDoList.mk (some m)).keys ↔ id ∈ m := by
  simp [ToDoList.keys, Finmap.mem_keys]

theorem tasks_of_mem_keys {t : ToDoList} {id : Int} (h : id ∈ t.keys) :
    ∃ m : TaskMap, t = ⟨some m⟩ ∧ id ∈ m := by
  obtain ⟨_ | m⟩ := t
  · simp [ToDoList.keys] at h
  · exact ⟨m, rfl, (keys_some m id).1 h⟩

theorem get_of_lookup {t : ToDoList} {id : Int} {v : Task} (h : t.lookup id = some v) :
    t.get id = v := by
  obtain ⟨_ | m⟩ := t
  · simp [ToDoList.lookup] at h
  · simp only [ToDoList.lookup] at h
    simp [ToDoList.get, h]

theorem lookup_isSome_iff (t : ToDoList) (id : Int) : (t.lookup id).isSome ↔ id ∈ t.keys := by
  obtain ⟨_ | m⟩ := t
  · simp [ToDoList.lookup, ToDoList.keys]
  · simp [ToDoList.lookup, ToDoList.keys, Finmap.lookup_isSome, Finmap.mem_keys]

/-- The scan started at `i` stops at the first integer from `i` on that is not a key. -/
theorem scan_spec (t : ToDoList) (i : Int) :
    i ≤ t.scan i ∧ t.scan i ∉ t.keys ∧ ∀ k : Int, i ≤ k → k < t.scan i → k ∈ t.keys := by
  induction i using ToDoList.scan.induct t with
  | case1 i h ih =>
    rw [ToDoList.scan, dif_pos h]
    obtain ⟨h1, h2, h3⟩ := ih
    refine ⟨by omega, h2, fun k hk hlt => ?_⟩
    by_cases hki : k = i
    · subst hki; exact (has_iff t k).1 h
    · exact h3 k (by omega) hlt
  | case2 i h =>
    rw [ToDoList.scan, dif_neg h]
    refine ⟨le_refl i, fun hmem => h ((has_iff t i).2 hmem), fun k hk hlt => ?_⟩
    omega

/-- The first free identifier is determined by its characterisation. -/
theorem scan_eq_of_spec (t : ToDoList) (n : Int) (h1 : 1 ≤ n) (h2 : n ∉ t.keys)
    (h3 : ∀ k : Int, 1 ≤ k → k < n → k ∈ t.keys) : t.scan 1 = n := by
  obtain ⟨g1, g2, g3⟩ := scan_spec t 1
  rcases lt_trichotomy (t.scan 1) n with hlt | heq | hgt
  · exact absurd (h3 _ g1 hlt) g2
  · exact heq
  · exact absurd (g3 n h1 hgt) h2

/-- The scan from 1 stops within `size + 1` steps: the counter `i` of the loop
never exceeds the number of entries plus one, far below `2^63` for a map held
in memory, so the `i++` of the source cannot overflow. -/
theorem scan_le_card_succ (t : ToDoList) : t.scan 1 ≤ (t.keys.card : Int) + 1 := by
  obtain ⟨g1, -, g3⟩ := scan_spec t 1
  have hsub : Finset.Ico 1 (t.scan 1) ⊆ t.keys := by
    intro k hk
    rw [Finset.mem_Ico] at hk
    exact g3 k hk.1 hk.2
  have hcard := Finset.card_le_card hsub
  rw [Int.card_Ico] at hcard
  omega

/-- On an initialised map `Add` inserts under the identifier the scan yields and
prints it. -/
theorem Add_some (m : TaskMap) (description : String) (now₁ now₂ : Time) :
    ToDoList.Add ⟨some m⟩ description now₁ now₂ =
      .ok (⟨some (m.insert ((ToDoList.mk (some m)).scan 1) ⟨description, Todo, now₁, now₂⟩)⟩,
        "Task added successfully (ID: " ++ toString ((ToDoList.mk (some m)).scan 1) ++ ")\n") := by
  simp [ToDoList.Add, ToDoList.set]

/-- Adding to the empty collection stores the task under 1. -/
theorem Add_empty (description : String) (now₁ now₂ : Time) :
    ToDoList.Add ⟨some ∅⟩ description now₁ now₂ =
      .ok (⟨some (Finmap.insert 1 ⟨description, Todo, now₁, now₂⟩ ∅)⟩,
           "Task added successfully (ID: 1)\n") := by
  have h : (ToDoList.mk (some (∅ : TaskMap))).scan 1 = 1 := by
    apply scan_eq_of_spec
    · decide
    · simp [ToDoList.keys]
    · intro k hk hlt
      omega
  rw [Add_some, h]
  rfl

/-- Overwriting an existing key: the write succeeds, the key set stays, the
entry is the new value and every other entry is untouched. -/
theorem set_spec {t : ToDoList} {id : Int} (h : id ∈ t.keys) (v : Task) :
    ∃ t' : ToDoList, t.set id v = .ok t' ∧ t'.keys = t.keys ∧ t'.lookup id = some v ∧
      ∀ k : Int, k ≠ id → t'.lookup k = t.lookup k := by
  obtain ⟨m, rfl, hm⟩ := tasks_of_mem_keys h
  refine ⟨⟨some (m.insert id v)⟩, rfl, ?_, ?_, fun k hk => ?_⟩
  · ext k
    simp only [ToDoList.keys, Finmap.mem_keys, Finmap.mem_insert]
    constructor
    · rintro (rfl | hk)
      · exact hm
      · exact hk
    · exact fun hk => Or.inr hk
  · simp [ToDoList.lookup]
  · simp [ToDoList.lookup, Finmap.lookup_insert_of_ne _ hk]

/-- A successful map write changes the entry written and no other. -/
theorem lookup_set {t t' : ToDoList} {id : Int} {v : Task} (h : t.set id v = .ok t') (k : Int) :
    t'.lookup k = if k = id then some v else t.lookup k := by
  obtain ⟨_ | m⟩ := t
  · simp [ToDoList.set] at h
  · simp only [ToDoList.set, Except.ok.injEq] at h
    subst h
    by_cases hk : k = id
    · subst hk; simp [ToDoList.lookup]
    · simp [ToDoList.lookup, hk, Finmap.lookup_insert_of_ne _ hk]

/-- Deleting removes the entry deleted and no other. -/
theorem lookup_Delete (t : ToDoList) (id k : Int) :
    (t.Delete id).lookup k = if k = id then none else t.lookup k := by
  obtain ⟨_ | m⟩ := t
  · simp [ToDoList.Delete, ToDoList.lookup]
  · by_cases hk : k = id
    · subst hk; simp [ToDoList.Delete, ToDoList.lookup, Finmap.lookup_erase]
    · simp [ToDoList.Delete, ToDoList.lookup, hk, Finmap.lookup_erase_ne hk]

/-- A successful `Add` writes one entry, under a key that was free. -/
theorem lookup_Add {t t' : ToDoList} {description out : String} {now₁ now₂ : Time}
    (h : t.Add description now₁ now₂ = .ok (t', out)) :
    ∃ n : Int, t.lookup n = none ∧
      ∀ k : Int, t'.lookup k =
        if k = n then some ⟨description, Todo, now₁, now₂⟩ else t.lookup k := by
  obtain ⟨_ | m⟩ := t
  · simp [ToDoList.Add, ToDoList.set] at h
  · rw [Add_some] at h
    simp only [Except.ok.injEq, Prod.mk.injEq] at h
    obtain ⟨-, g2, -⟩ := scan_spec ⟨some m⟩ 1
    refine ⟨(ToDoList.mk (some m)).scan 1, ?_, fun k => lookup_set (t := ⟨some m⟩) ?_ k⟩
    · rw [← Option.not_isSome_iff_eq_none, lookup_isSome_iff]
      exact g2
    · rw [← h.1]
      rfl

/-- The invariant in terms of the entries stored. -/
theorem ordered_iff (t : ToDoList) :
    t.Ordered ↔ ∀ (k : Int) (v : Task), t.lookup k = some v → v.CreatedAt ≤ v.UpdatedAt := by
  constructor
  · intro h k v hv
    have hk : k ∈ t.keys := (lookup_isSome_iff t k).1 (by simp [hv])
    simpa [get_of_lookup hv] using h k hk
  · intro h k hk
    obtain ⟨v, hv⟩ := Option.isSome_iff_exists.1 ((lookup_isSome_iff t k).2 hk)
    simpa [get_of_lookup hv] using h k v hv

theorem afterCall_toDoList (t : ToDoList) (r : Except String ToDoList) :
    (afterCall t r).toDoList = t ∨ r = .ok (afterCall t r).toDoList := by
  cases r with
  | error e => exact Or.inl rfl
  | ok t' => exact Or.inr rfl

/-- What the command switch can do to the collection: nothing, or the effect
of one method call, the id-taking ones only on an existing id. -/
theorem dispatch_cases (t : ToDoList) (argv : List String) (now : Nat → Time)
    (order : List Int) :
    (dispatch t argv now order).toDoList = t ∨
    (∃ description out, t.Add description (now 0) (now 1) =
        .ok ((dispatch t argv now order).toDoList, out)) ∨
    (∃ id description, id ∈ t.keys ∧
        t.Update id description (now 0) = .ok (dispatch t argv now order).toDoList) ∨
    (∃ id, id ∈ t.keys ∧ (dispatch t argv now order).toDoList = t.Delete id) ∨
    (∃ id, id ∈ t.keys ∧
        t.MarkInProgress id (now 0) = .ok (dispatch t argv now order).toDoList) ∨
    (∃ id, id ∈ t.keys ∧
        t.MarkDone id (now 0) = .ok (dispatch t argv now order).toDoList) := by
  generalize hr : dispatch t argv now order = r
  unfold dispatch at hr
  repeat' split at hr
  all_goals subst hr
  all_goals first
    | exact Or.inl rfl
    | exact Or.inr (Or.inl ⟨_, _, by assumption⟩)
    | exact Or.inr (Or.inr (Or.inr (Or.inl ⟨_, (has_iff _ _).1 (by assumption), rfl⟩)))
    | skip
  · rename_i id _ h
    rcases afterCall_toDoList t (t.Update id _ (now 0)) with h' | h'
    · exact Or.inl h'
    · exact Or.inr (Or.inr (Or.inl ⟨_, _, (has_iff _ _).1 h, h'⟩))
  · rename_i id _ h
    rcases afterCall_toDoList t (t.MarkInProgress id (now 0)) with h' | h'
    · exact Or.inl h'
    · exact Or.inr (Or.inr (Or.inr (Or.inr (Or.inl ⟨_, (has_iff _ _).1 h, h'⟩))))
  · rename_i id _ h
    rcases afterCall_toDoList t (t.MarkDone id (now 0)) with h' | h'
    · exact Or.inl h'
    · exact Or.inr (Or.inr (Or.inr (Or.inr (Or.inr ⟨_, (has_iff _ _).1 h, h'⟩))))

/-- After a successful load, `main` prints what the command switch prints. -/
theorem main_stdout {w : World} {t : ToDoList} (hload : load w = .ok t) (argv : List String) :
    (main w argv).stdout = (dispatch t argv w.Now w.rangeOrder).stdout := by
  unfold main
  rw [hload]
  dsimp only
  split
  · split
    · rfl
    · split <;> rfl
  · rfl

/-- A fatal error in the command switch ends the run without reaching
`os.WriteFile`. -/
theorem main_of_dispatch_fatal {w : World} {t : ToDoList} (hload : load w = .ok t)
    {argv : List String} {msg : String}
    (h : (dispatch t argv w.Now w.rangeOrder).exit = .fatal msg) :
    (main w argv).exit = .fatal msg ∧ (main w argv).written = none := by
  unfold main
  rw [hload]
  dsimp only
  rw [h]
  exact ⟨rfl, rfl⟩

/-- A run whose command switch is fatal on every collection is fatal and never
reaches `os.WriteFile`, whatever the storage file holds. -/
theorem main_fatal_of_dispatch (w : World) (argv : List String)
    (h : ∀ t : ToDoList, ∃ msg, (dispatch t argv w.Now w.rangeOrder).exit = .fatal msg) :
    (∃ msg, (main w argv).exit = .fatal msg) ∧ (main w argv).written = none := by
  cases hload : load w with
  | error e =>
    unfold main
    rw [hload]
    exact ⟨⟨e, rfl⟩, rfl⟩
  | ok t =>
    obtain ⟨msg, hmsg⟩ := h t
    exact ⟨⟨msg, (main_of_dispatch_fatal hload hmsg).1⟩, (main_of_dispatch_fatal hload hmsg).2⟩

/-! ## Claims about the task collection -/

/-- C1: on every initialised collection `Add` stores the new task under, and
prints, the smallest integer `n ≥ 1` that is not a key: `n` is no key before,
every `k` with `1 ≤ k < n` is a key, and `n` is a key afterwards.  On keys
`{1, 3}` that is 2, on the empty collection 1. -/
theorem add_assigns_smallest_free_id :
    (∀ (m : TaskMap) (description : String) (now₁ now₂ : Time),
      ∃ (n : Int) (t' : ToDoList),
        ToDoList.Add ⟨some m⟩ description now₁ now₂ =
          .ok (t', "Task added successfully (ID: " ++ toString n ++ ")\n") ∧
        t'.lookup n = some ⟨description, Todo, now₁, now₂⟩ ∧
        1 ≤ n ∧ n ∉ m ∧ (∀ k : Int, 1 ≤ k → k < n → k ∈ m) ∧ n ∈ t'.keys) ∧
    (∀ (a c : Task) (description : String) (now₁ now₂ : Time),
      ToDoList.Add ⟨some (Finmap.insert 3 c (Finmap.insert 1 a ∅))⟩ description now₁ now₂ =
        .ok (⟨some (Finmap.insert 2 ⟨description, Todo, now₁, now₂⟩
                (Finmap.insert 3 c (Finmap.insert 1 a ∅)))⟩,
             "Task added successfully (ID: 2)\n")) ∧
    (∀ (description : String) (now₁ now₂ : Time),
      ToDoList.Add ⟨some ∅⟩ description now₁ now₂ =
        .ok (⟨some (Finmap.insert 1 ⟨description, Todo, now₁, now₂⟩ ∅)⟩,
             "Task added successfully (ID: 1)\n")) := by
  refine ⟨fun m description now₁ now₂ => ?_, fun a c description now₁ now₂ => ?_,
    fun description now₁ now₂ => ?_⟩
  · obtain ⟨g1, g2, g3⟩ := scan_spec ⟨some m⟩ 1
    refine ⟨(ToDoList.mk (some m)).scan 1, _, Add_some m description now₁ now₂, ?_, g1,
      fun hm => g2 ((keys_some m _).2 hm), fun k hk hlt => (keys_some m k).1 (g3 k hk hlt), ?_⟩
    · simp [ToDoList.lookup]
    · simp [ToDoList.keys, Finmap.mem_keys]
  · have h : (ToDoList.mk (some (Finmap.insert 3 c (Finmap.insert 1 a ∅)))).scan 1 = 2 := by
      apply scan_eq_of_spec
      · decide
      · simp [ToDoList.keys, Finmap.mem_keys, Finmap.not_mem_empty]
      · intro k hk hlt
        have : k = 1 := by omega
        subst this
        simp [ToDoList.keys, Finmap.mem_keys]
    rw [Add_some, h]
    rfl
  · exact Add_empty description now₁ now₂


/-- C2, the code at the failing input: `add "buy milk"` on the empty collection,
with the clock reading 0 at the first `time.Now()` of line 39 and 1 at the
second, stores a task with `CreatedAt = 0` and `UpdatedAt = 1`, which are not
equal. -/
theorem add_timestamps_differ :
    ∃ (t' : ToDoList) (out : String),
      ToDoList.Add ⟨some ∅⟩ "buy milk" 0 1 = .ok (t', out) ∧
      t'.lookup 1 = some ⟨"buy milk", Todo, 0, 1⟩ ∧
      (t'.get 1).CreatedAt ≠ (t'.get 1).UpdatedAt :=
  ⟨_, _, Add_empty "buy milk" 0 1, by decide, by decide⟩

/-- C3: `Update` on an existing id succeeds, keeps the key set, stores under `id`
the new description with the old status and `CreatedAt` and with `UpdatedAt`
the clock reading of the call, and leaves every other entry as it was. -/
theorem update_frame (t : ToDoList) (id : Int) (old : Task) (description : String)
    (now : Time) (h : t.lookup id = some old) :
    ∃ t' : ToDoList, t.Update id description now = .ok t' ∧ t'.keys = t.keys ∧
      t'.lookup id = some ⟨description, old.Status, old.CreatedAt, now⟩ ∧
      ∀ k : Int, k ≠ id → t'.lookup k = t.lookup k := by
  have hk : id ∈ t.keys := (lookup_isSome_iff t id).1 (by simp [h])
  unfold ToDoList.Update
  rw [get_of_lookup h]
  exact set_spec hk _

/-- Witness for C3: updating task 1 of `{1: a}`. -/
theorem update_frame_witness :
    exampleOne.lookup 1 = some ⟨"a", Todo, 10, 10⟩ ∧
    ∃ t' : ToDoList, exampleOne.Update 1 "b" 20 = .ok t' ∧ t'.keys = exampleOne.keys ∧
      t'.lookup 1 = some ⟨"b", Todo, 10, 20⟩ ∧
      ∀ k : Int, k ≠ 1 → t'.lookup k = exampleOne.lookup k :=
  ⟨by decide, update_frame exampleOne 1 ⟨"a", Todo, 10, 10⟩ "b" 20 (by decide)⟩

/-- C4: on an existing id `MarkInProgress` stores status `InProgress` and
`MarkDone` stores status `Done`, whatever the status was; description and
`CreatedAt` of the task are kept, the key set is unchanged and so is every
other entry. -/
theorem mark_frame (t : ToDoList) (id : Int) (old : Task) (now : Time)
    (h : t.lookup id = some old) :
    (∃ t' : ToDoList, t.MarkInProgress id now = .ok t' ∧ t'.keys = t.keys ∧
      t'.lookup id = some ⟨old.Description, InProgress, old.CreatedAt, now⟩ ∧
      ∀ k : Int, k ≠ id → t'.lookup k = t.lookup k) ∧
    (∃ t' : ToDoList, t.MarkDone id now = .ok t' ∧ t'.keys = t.keys ∧
      t'.lookup id = some ⟨old.Description, Done, old.CreatedAt, now⟩ ∧
      ∀ k : Int, k ≠ id → t'.lookup k = t.lookup k) := by
  have hk : id ∈ t.keys := (lookup_isSome_iff t id).1 (by simp [h])
  unfold ToDoList.MarkInProgress ToDoList.MarkDone
  rw [get_of_lookup h]
  exact ⟨set_spec hk _, set_spec hk _⟩

/-- Witness for C4: marking the `Done` task 2 of the three-task example. -/
theorem mark_frame_witness :
    exampleThree.lookup 2 = some ⟨"b", Done, 0, 0⟩ ∧
    (∃ t' : ToDoList, exampleThree.MarkInProgress 2 7 = .ok t' ∧ t'.keys = exampleThree.keys ∧
      t'.lookup 2 = some ⟨"b", InProgress, 0, 7⟩ ∧
      ∀ k : Int, k ≠ 2 → t'.lookup k = exampleThree.lookup k) ∧
    (∃ t' : ToDoList, exampleThree.MarkDone 2 7 = .ok t' ∧ t'.keys = exampleThree.keys ∧
      t'.lookup 2 = some ⟨"b", Done, 0, 7⟩ ∧
      ∀ k : Int, k ≠ 2 → t'.lookup k = exampleThree.lookup k) :=
  ⟨by decide, mark_frame exampleThree 2 ⟨"b", Done, 0, 0⟩ 7 (by decide)⟩


/-- C5, refuted as stated: task 1 of `exampleOne` was last updated at instant 10;
`Update`, `MarkInProgress` and `MarkDone` called when the clock reads 5 each
store `UpdatedAt = 5`, which is earlier. -/
theorem updatedAt_can_go_back :
    exampleOne.lookup 1 = some ⟨"a", Todo, 10, 10⟩ ∧
    (∃ t' : ToDoList, exampleOne.Update 1 "b" 5 = .ok t' ∧
      t'.lookup 1 = some ⟨"b", Todo, 10, 5⟩ ∧ (t'.get 1).UpdatedAt < (exampleOne.get 1).UpdatedAt) ∧
    (∃ t' : ToDoList, exampleOne.MarkInProgress 1 5 = .ok t' ∧
      (t'.get 1).UpdatedAt < (exampleOne.get 1).UpdatedAt) ∧
    (∃ t' : ToDoList, exampleOne.MarkDone 1 5 = .ok t' ∧
      (t'.get 1).UpdatedAt < (exampleOne.get 1).UpdatedAt) :=
  ⟨by decide, ⟨_, rfl, by decide, by decide⟩, ⟨_, rfl, by decide⟩, ⟨_, rfl, by decide⟩⟩

/-- C5, amended: for every clock reading, `Update`, `MarkInProgress` and
`MarkDone` on an existing id succeed, keep the task's `CreatedAt` and set its
`UpdatedAt` to the reading; so the new `UpdatedAt` is at least the previous one
exactly when the reading is not earlier than the previous `UpdatedAt`. -/
theorem update_and_mark_timestamps (t : ToDoList) (id : Int) (old : Task)
    (description : String) (now : Time) (h : t.lookup id = some old) :
    ∀ r ∈ [t.Update id description now, t.MarkInProgress id now, t.MarkDone id now],
      ∃ (t' : ToDoList) (new : Task), r = .ok t' ∧ t'.lookup id = some new ∧
        new.CreatedAt = old.CreatedAt ∧ new.UpdatedAt = now ∧
        (old.UpdatedAt ≤ new.UpdatedAt ↔ old.UpdatedAt ≤ now) := by
  have hk : id ∈ t.keys := (lookup_isSome_iff t id).1 (by simp [h])
  intro r hr
  simp only [List.mem_cons, List.mem_singleton, List.not_mem_nil, or_false] at hr
  rcases hr with rfl | rfl | rfl
  · obtain ⟨t', h1, -, h3, -⟩ :=
      set_spec hk ⟨description, (t.get id).Status, (t.get id).CreatedAt, now⟩
    exact ⟨t', _, h1, h3, by rw [get_of_lookup h], rfl, Iff.rfl⟩
  · obtain ⟨t', h1, -, h3, -⟩ :=
      set_spec hk ⟨(t.get id).Description, InProgress, (t.get id).CreatedAt, now⟩
    exact ⟨t', _, h1, h3, by rw [get_of_lookup h], rfl, Iff.rfl⟩
  · obtain ⟨t', h1, -, h3, -⟩ :=
      set_spec hk ⟨(t.get id).Description, Done, (t.get id).CreatedAt, now⟩
    exact ⟨t', _, h1, h3, by rw [get_of_lookup h], rfl, Iff.rfl⟩

/-- Witness for C5 as amended: task 1 of `exampleOne`, last updated at instant
10, touched when the clock reads 5. -/
theorem update_and_mark_timestamps_witness :
    exampleOne.lookup 1 = some ⟨"a", Todo, 10, 10⟩ ∧
    ∀ r ∈ [exampleOne.Update 1 "b" 5, exampleOne.MarkInProgress 1 5,
        exampleOne.MarkDone 1 5],
      ∃ (t' : ToDoList) (new : Task), r = .ok t' ∧ t'.lookup 1 = some new ∧
        new.CreatedAt = 10 ∧ new.UpdatedAt = 5 ∧
        ((10 : Time) ≤ new.UpdatedAt ↔ (10 : Time) ≤ 5) :=
  ⟨by decide, update_and_mark_timestamps exampleOne 1 ⟨"a", Todo, 10, 10⟩ "b" 5 (by decide)⟩

/-- C7: `Delete` on an existing id removes that entry and no other: the key set
becomes the old one without `id`, one smaller, and every other id keeps its
task. -/
theorem delete_frame (t : ToDoList) (id : Int) (h : id ∈ t.keys) :
    (t.Delete id).keys = t.keys.erase id ∧
    (t.Delete id).keys.card + 1 = t.keys.card ∧
    (t.Delete id).lookup id = none ∧
    ∀ k : Int, k ≠ id → (t.Delete id).lookup k = t.lookup k := by
  have hkeys : (t.Delete id).keys = t.keys.erase id := by
    obtain ⟨m, rfl, -⟩ := tasks_of_mem_keys h
    simp [ToDoList.Delete, ToDoList.keys, Finmap.keys_erase]
  refine ⟨hkeys, ?_, ?_, fun k hk => ?_⟩
  · rw [hkeys, Finset.card_erase_add_one h]
  · simp [lookup_Delete]
  · simp [lookup_Delete, hk]

/-- Witness for C7: deleting task 2 of the three-task example. -/
theorem delete_frame_witness :
    (2 : Int) ∈ exampleThree.keys ∧
    (exampleThree.Delete 2).keys = exampleThree.keys.erase 2 ∧
    (exampleThree.Delete 2).keys.card + 1 = exampleThree.keys.card ∧
    (exampleThree.Delete 2).lookup 2 = none ∧
    ∀ k : Int, k ≠ 2 → (exampleThree.Delete 2).lookup k = exampleThree.lookup k :=
  ⟨by decide, delete_frame exampleThree 2 (by decide)⟩


/-! ## Claims about the command line -/

/-- C8: for `update`, `delete`, `mark-in-progress` and `mark-done` with the right
number of operands, an id operand that `Atoi` rejects or that is not a key of
the loaded collection makes the run fatal; the collection is left as loaded and
`os.WriteFile` is never reached. -/
theorem bad_id_is_fatal (w : World) (t : ToDoList) (cmd arg : String) (rest : List String)
    (hload : load w = .ok t)
    (hcmd : cmd ∈ ["update", "delete", "mark-in-progress", "mark-done"])
    (hcount : rest.length = if cmd = "update" then 1 else 0)
    (hid : Atoi arg = none ∨ ∃ id, Atoi arg = some id ∧ id ∉ t.keys) :
    (∃ msg, (main w (cmd :: arg :: rest)).exit = .fatal msg) ∧
    (dispatch t (cmd :: arg :: rest) w.Now w.rangeOrder).toDoList = t ∧
    (main w (cmd :: arg :: rest)).written = none := by
  have key : (∃ msg, (dispatch t (cmd :: arg :: rest) w.Now w.rangeOrder).exit = .fatal msg) ∧
      (dispatch t (cmd :: arg :: rest) w.Now w.rangeOrder).toDoList = t := by
    simp only [List.mem_cons, List.mem_singleton, List.not_mem_nil, or_false] at hcmd
    rcases hcmd with rfl | rfl | rfl | rfl
    · obtain ⟨d, rfl⟩ : ∃ d, rest = [d] := by
        simpa [List.length_eq_one] using hcount
      rcases hid with hid | ⟨id, hid, hk⟩
      · simp [dispatch, hid]
      · simp [dispatch, hid, ToDoList.has, hk]
    all_goals
      obtain rfl : rest = [] := by simpa using hcount
      rcases hid with hid | ⟨id, hid, hk⟩
      · simp [dispatch, hid]
      · simp [dispatch, hid, ToDoList.has, hk]
  obtain ⟨⟨msg, hmsg⟩, hsame⟩ := key
  exact ⟨⟨msg, (main_of_dispatch_fatal hload hmsg).1⟩, hsame,
    (main_of_dispatch_fatal hload hmsg).2⟩

/-- Witness for C8: `update 99 x` when there is no storage file. -/
theorem bad_id_is_fatal_witness :
    load freshWorld = .ok ⟨some ∅⟩ ∧
    "update" ∈ ["update", "delete", "mark-in-progress", "mark-done"] ∧
    ["x"].length = (if "update" = "update" then 1 else 0) ∧
    (Atoi "99" = none ∨ ∃ id, Atoi "99" = some id ∧ id ∉ (ToDoList.mk (some ∅)).keys) ∧
    (∃ msg, (main freshWorld ["update", "99", "x"]).exit = .fatal msg) ∧
    (dispatch ⟨some ∅⟩ ["update", "99", "x"] freshWorld.Now freshWorld.rangeOrder).toDoList =
      ⟨some ∅⟩ ∧
    (main freshWorld ["update", "99", "x"]).written = none :=
  ⟨rfl, by decide, by decide, Or.inr ⟨99, by decide, by decide⟩,
    bad_id_is_fatal freshWorld ⟨some ∅⟩ "update" "99" ["x"] rfl (by decide) (by decide)
      (Or.inr ⟨99, by decide, by decide⟩)⟩


/-- C9: with no command, an unknown command name, a wrong number of operands
(`add` 1, `update` 2, `delete` 1, `mark-in-progress` 1, `mark-done` 1, `list` 0
or 1) or a `list` operand other than `done`, `todo`, `in-progress`, the run is
fatal and never reaches `os.WriteFile`; the command switch is fatal on every
collection and leaves it as it was. -/
theorem bad_usage_is_fatal (w : World) (argv : List String)
    (h : argv = [] ∨ ∃ cmd ops, argv = cmd :: ops ∧
      (cmd ∉ ["add", "update", "delete", "mark-in-progress", "mark-done", "list"] ∨
       (cmd = "add" ∧ ops.length ≠ 1) ∨
       (cmd = "update" ∧ ops.length ≠ 2) ∨
       (cmd = "delete" ∧ ops.length ≠ 1) ∨
       (cmd = "mark-in-progress" ∧ ops.length ≠ 1) ∨
       (cmd = "mark-done" ∧ ops.length ≠ 1) ∨
       (cmd = "list" ∧ ops.length ≠ 0 ∧ ops.length ≠ 1) ∨
       (cmd = "list" ∧ ∃ f, ops = [f] ∧ f ∉ ["done", "todo", "in-progress"]))) :
    (∃ msg, (main w argv).exit = .fatal msg) ∧ (main w argv).written = none ∧
    ∀ t : ToDoList, (∃ msg, (dispatch t argv w.Now w.rangeOrder).exit = .fatal msg) ∧
      (dispatch t argv w.Now w.rangeOrder).toDoList = t := by
  have key : ∀ t : ToDoList, (∃ msg, (dispatch t argv w.Now w.rangeOrder).exit = .fatal msg) ∧
      (dispatch t argv w.Now w.rangeOrder).toDoList = t := by
    intro t
    rcases h with rfl | ⟨cmd, ops, rfl, h⟩
    · simp [dispatch]
    · rcases h with h | ⟨rfl, h⟩ | ⟨rfl, h⟩ | ⟨rfl, h⟩ | ⟨rfl, h⟩ | ⟨rfl, h⟩ | ⟨rfl, h0, h1⟩ |
        ⟨rfl, f, rfl, h⟩
      · simp only [List.mem_cons, List.mem_singleton, List.not_mem_nil, or_false, not_or] at h
        obtain ⟨h1, h2, h3, h4, h5, h6⟩ := h
        simp [dispatch, h1, h2, h3, h4, h5, h6]
      · rcases ops with _ | ⟨a, _ | ⟨b, l⟩⟩
        · simp [dispatch]
        · simp at h
        · simp [dispatch]
      · rcases ops with _ | ⟨a, _ | ⟨b, _ | ⟨c, l⟩⟩⟩
        · simp [dispatch]
        · simp [dispatch]
        · simp at h
        · simp [dispatch]
      · rcases ops with _ | ⟨a, _ | ⟨b, l⟩⟩
        · simp [dispatch]
        · simp at h
        · simp [dispatch]
      · rcases ops with _ | ⟨a, _ | ⟨b, l⟩⟩
        · simp [dispatch]
        · simp at h
        · simp [dispatch]
      · rcases ops with _ | ⟨a, _ | ⟨b, l⟩⟩
        · simp [dispatch]
        · simp at h
        · simp [dispatch]
      · rcases ops with _ | ⟨a, _ | ⟨b, l⟩⟩
        · simp at h0
        · simp at h1
        · simp [dispatch]
      · simp only [List.mem_cons, List.mem_singleton, List.not_mem_nil, or_false, not_or] at h
        obtain ⟨h1, h2, h3⟩ := h
        simp [dispatch, h1, h2, h3]
  obtain ⟨h1, h2⟩ := main_fatal_of_dispatch w argv (fun t => (key t).1)
  exact ⟨h1, h2, key⟩

/-- Witness for C9: a run with no argument at all. -/
theorem bad_usage_is_fatal_witness :
    (main freshWorld []).exit = .fatal "Write a command\n" ∧
    (∃ msg, (main freshWorld []).exit = .fatal msg) ∧ (main freshWorld []).written = none ∧
    ∀ t : ToDoList,
      (∃ msg, (dispatch t [] freshWorld.Now freshWorld.rangeOrder).exit = .fatal msg) ∧
      (dispatch t [] freshWorld.Now freshWorld.rangeOrder).toDoList = t :=
  ⟨rfl, bad_usage_is_fatal freshWorld [] (Or.inl rfl)⟩

/-- The keys visited by a `range` loop, each once, are as a multiset the key
set of the map. -/
theorem range_order_keys {t : ToDoList} {order : List Int} (hnodup : order.Nodup)
    (hkeys : ∀ k : Int, k ∈ order ↔ k ∈ t.keys) : (order : Multiset Int) = t.keys.val := by
  have : (⟨(order : Multiset Int), Multiset.coe_nodup.2 hnodup⟩ : Finset Int) = t.keys := by
    ext k
    simpa using hkeys k
  rw [← this]

/-- C10: when the `range` loop visits every key of the loaded collection once,
`list done` prints exactly the descriptions of the tasks with status `Done`,
each followed by a newline, one `Println` per task, in some order; likewise
`list todo` and `list in-progress`; `list` prints one such line per task. -/
theorem list_prints_matching_descriptions (w : World) (t : ToDoList)
    (hload : load w = .ok t) (hnodup : w.rangeOrder.Nodup)
    (hkeys : ∀ k : Int, k ∈ w.rangeOrder ↔ k ∈ t.keys) :
    ((main w ["list", "done"]).stdout : Multiset String) =
      (t.keys.val.filter (fun k => (t.get k).Status = Done)).map
        (fun k => (t.get k).Description ++ "\n") ∧
    ((main w ["list", "todo"]).stdout : Multiset String) =
      (t.keys.val.filter (fun k => (t.get k).Status = Todo)).map
        (fun k => (t.get k).Description ++ "\n") ∧
    ((main w ["list", "in-progress"]).stdout : Multiset String) =
      (t.keys.val.filter (fun k => (t.get k).Status = InProgress)).map
        (fun k => (t.get k).Description ++ "\n") ∧
    ((main w ["list"]).stdout : Multiset String) =
      t.keys.val.map (fun k => (t.get k).Description ++ "\n") := by
  have hord := range_order_keys hnodup hkeys
  have hfilter : ∀ s : TaskStatus,
      (((w.rangeOrder.filter (fun id => (t.get id).Status == s)).map
        (fun id => ToDoList.println (t.get id).Description) : List String) : Multiset String) =
      (t.keys.val.filter (fun k => (t.get k).Status = s)).map
        (fun k => (t.get k).Description ++ "\n") := by
    intro s
    have hb : (fun id => (t.get id).Status == s) = fun id => decide ((t.get id).Status = s) :=
      rfl
    rw [← hord, Multiset.filter_coe, Multiset.map_coe, hb]
    rfl
  refine ⟨?_, ?_, ?_, ?_⟩
  · rw [main_stdout hload]
    simpa [dispatch, ToDoList.ListDone] using hfilter Done
  · rw [main_stdout hload]
    simpa [dispatch, ToDoList.ListToDo] using hfilter Todo
  · rw [main_stdout hload]
    simpa [dispatch, ToDoList.ListInProgress] using hfilter InProgress
  · rw [main_stdout hload, ← hord, Multiset.map_coe]
    simp [dispatch, ToDoList.List, ToDoList.println]

/-- Witness for C10: on `{1: a/Todo, 2: b/Done, 3: c/InProgress}`, visited in the
order 3, 1, 2, the four commands print `b`, `a`, `c` and `c, a, b`. -/
theorem list_prints_matching_descriptions_witness :
    load threeWorld = .ok exampleThree ∧ threeWorld.rangeOrder.Nodup ∧
    (∀ k : Int, k ∈ threeWorld.rangeOrder ↔ k ∈ exampleThree.keys) ∧
    (main threeWorld ["list", "done"]).stdout = ["b\n"] ∧
    (main threeWorld ["list", "todo"]).stdout = ["a\n"] ∧
    (main threeWorld ["list", "in-progress"]).stdout = ["c\n"] ∧
    (main threeWorld ["list"]).stdout = ["c\n", "a\n", "b\n"] ∧
    ((main threeWorld ["list", "done"]).stdout : Multiset String) =
      (exampleThree.keys.val.filter (fun k => (exampleThree.get k).Status = Done)).map
        (fun k => (exampleThree.get k).Description ++ "\n") ∧
    ((main threeWorld ["list", "todo"]).stdout : Multiset String) =
      (exampleThree.keys.val.filter (fun k => (exampleThree.get k).Status = Todo)).map
        (fun k => (exampleThree.get k).Description ++ "\n") ∧
    ((main threeWorld ["list", "in-progress"]).stdout : Multiset String) =
      (exampleThree.keys.val.filter (fun k => (exampleThree.get k).Status = InProgress)).map
        (fun k => (exampleThree.get k).Description ++ "\n") ∧
    ((main threeWorld ["list"]).stdout : Multiset String) =
      exampleThree.keys.val.map (fun k => (exampleThree.get k).Description ++ "\n") :=
  have hk : ∀ k : Int, k ∈ threeWorld.rangeOrder ↔ k ∈ exampleThree.keys := by
    intro k
    simp only [threeWorld, exampleThree, ToDoList.keys, Finmap.mem_keys, Finmap.mem_insert,
      Finmap.not_mem_empty, List.mem_cons, List.mem_singleton, List.not_mem_nil, or_false]
    omega
  ⟨rfl, by decide, hk, by decide, by decide, by decide, by decide,
    list_prints_matching_descriptions threeWorld exampleThree rfl (by decide) hk⟩

/-! ## Further facts used by the claims below -/

/-- A run whose command switch ends normally hands the marshalled final
collection to `os.WriteFile`, and ends normally when that write succeeds. -/
theorem main_of_dispatch_ok {w : World} {t : ToDoList} (hload : load w = .ok t)
    {argv : List String} {buf : List UInt8}
    (hexit : (dispatch t argv w.Now w.rangeOrder).exit = .ok)
    (hbuf : w.Marshal (dispatch t argv w.Now w.rangeOrder).toDoList = .ok buf) :
    (main w argv).written = some buf ∧ (w.WriteFile buf = none → (main w argv).exit = .ok) := by
  unfold main
  rw [hload]
  dsimp only
  rw [hexit]
  dsimp only
  rw [hbuf]
  dsimp only
  cases hw : w.WriteFile buf with
  | none => exact ⟨rfl, fun _ => rfl⟩
  | some e => exact ⟨rfl, fun h => by cases h⟩

/-- Key set after writing an entry into an initialised map. -/
theorem keys_insert (m : TaskMap) (n : Int) (v : Task) :
    (ToDoList.mk (some (m.insert n v))).keys = insert n (ToDoList.mk (some m)).keys := by
  ext k
  simp [ToDoList.keys, Finmap.mem_keys, Finmap.mem_insert]

/-- Writing to the nil map panics, so `Add` on it does. -/
theorem Add_nil (description : String) (now₁ now₂ : Time) :
    ToDoList.Add ⟨none⟩ description now₁ now₂ = .error "assignment to entry in nil map" := by
  simp [ToDoList.Add, ToDoList.set]

/-- Well-formedness in terms of the entries stored. -/
theorem wellFormed_iff (t : ToDoList) :
    t.WellFormed ↔ ∀ (k : Int) (v : Task), t.lookup k = some v →
      0 < k ∧ (v.Status = Todo ∨ v.Status = InProgress ∨ v.Status = Done) := by
  constructor
  · intro h k v hv
    have hk : k ∈ t.keys := (lookup_isSome_iff t k).1 (by simp [hv])
    simpa [get_of_lookup hv] using h k hk
  · intro h k hk
    obtain ⟨v, hv⟩ := Option.isSome_iff_exists.1 ((lookup_isSome_iff t k).2 hk)
    simpa [get_of_lookup hv] using h k v hv

/-- A successful `Add` writes one entry, under a free key that is at least 1. -/
theorem lookup_Add_pos {t t' : ToDoList} {description out : String} {now₁ now₂ : Time}
    (h : t.Add description now₁ now₂ = .ok (t', out)) :
    ∃ n : Int, 1 ≤ n ∧
      ∀ k : Int, t'.lookup k =
        if k = n then some ⟨description, Todo, now₁, now₂⟩ else t.lookup k := by
  obtain ⟨_ | m⟩ := t
  · simp [ToDoList.Add, ToDoList.set] at h
  · rw [Add_some] at h
    simp only [Except.ok.injEq, Prod.mk.injEq] at h
    obtain ⟨g1, -, -⟩ := scan_spec ⟨some m⟩ 1
    refine ⟨(ToDoList.mk (some m)).scan 1, g1, fun k => lookup_set (t := ⟨some m⟩) ?_ k⟩
    rw [← h.1]
    rfl

/-! ## Claims about persistence, well-formedness and identifiers -/

/-- C11: each of `list`, `list done`, `list todo`, `list in-progress` ends the
command switch normally with the collection exactly as loaded, and the run
goes on to `os.WriteFile` with the marshalled form of that same collection. -/
theorem list_leaves_collection (w : World) (t : ToDoList) (argv : List String)
    (hload : load w = .ok t)
    (hargv : argv ∈ [["list"], ["list", "done"], ["list", "todo"], ["list", "in-progress"]]) :
    (dispatch t argv w.Now w.rangeOrder).exit = .ok ∧
    (dispatch t argv w.Now w.rangeOrder).toDoList = t ∧
    ∀ buf, w.Marshal t = .ok buf →
      (main w argv).written = some buf ∧ (w.WriteFile buf = none → (main w argv).exit = .ok) := by
  have key : (dispatch t argv w.Now w.rangeOrder).exit = .ok ∧
      (dispatch t argv w.Now w.rangeOrder).toDoList = t := by
    simp only [List.mem_cons, List.mem_singleton, List.not_mem_nil, or_false] at hargv
    rcases hargv with rfl | rfl | rfl | rfl <;> simp [dispatch]
  refine ⟨key.1, key.2, fun buf hbuf => ?_⟩
  exact main_of_dispatch_ok hload key.1 (by rw [key.2]; exact hbuf)

/-- Witness for C11: `list done` on the three-task example. -/
theorem list_leaves_collection_witness :
    load threeWorld = .ok exampleThree ∧
    ["list", "done"] ∈ [["list"], ["list", "done"], ["list", "todo"], ["list", "in-progress"]] ∧
    (dispatch exampleThree ["list", "done"] threeWorld.Now threeWorld.rangeOrder).exit = .ok ∧
    (dispatch exampleThree ["list", "done"] threeWorld.Now threeWorld.rangeOrder).toDoList =
      exampleThree ∧
    ∀ buf, threeWorld.Marshal exampleThree = .ok buf →
      (main threeWorld ["list", "done"]).written = some buf ∧
      (threeWorld.WriteFile buf = none → (main threeWorld ["list", "done"]).exit = .ok) :=
  ⟨rfl, by decide,
    list_leaves_collection threeWorld exampleThree ["list", "done"] rfl (by decide)⟩

/-- C13: when the storage file is absent or has length zero, the loaded
collection is the empty initialised map, and `add d` prints
`Task added successfully (ID: 1)`, leaves the collection with the single key 1
holding description `d` and status `Todo`, and hands the marshalled form of
that collection to `os.WriteFile`, ending normally when the write succeeds. -/
theorem add_on_empty_storage (w : World) (d : String)
    (h : w.ReadFile = .notExist ∨ w.ReadFile = .data []) :
    load w = .ok ⟨some ∅⟩ ∧
    (main w ["add", d]).stdout = ["Task added successfully (ID: 1)\n"] ∧
    ∃ t' : ToDoList, (dispatch ⟨some ∅⟩ ["add", d] w.Now w.rangeOrder).toDoList = t' ∧
      (dispatch ⟨some ∅⟩ ["add", d] w.Now w.rangeOrder).exit = .ok ∧
      t'.keys = {1} ∧
      t'.lookup 1 = some ⟨d, Todo, w.Now 0, w.Now 1⟩ ∧
      ∀ buf, w.Marshal t' = .ok buf →
        (main w ["add", d]).written = some buf ∧
        (w.WriteFile buf = none → (main w ["add", d]).exit = .ok) := by
  have hload : load w = .ok ⟨some ∅⟩ := by
    rcases h with h | h <;> simp [load, h]
  have hd : dispatch ⟨some ∅⟩ ["add", d] w.Now w.rangeOrder =
      ⟨.ok, ⟨some (Finmap.insert 1 ⟨d, Todo, w.Now 0, w.Now 1⟩ ∅)⟩,
        ["Task added successfully (ID: 1)\n"]⟩ := by
    simp [dispatch, Add_empty]
  refine ⟨hload, ?_, _, rfl, ?_, ?_, ?_, fun buf hbuf => ?_⟩
  · rw [main_stdout hload, hd]
  · rw [hd]
  · rw [hd, keys_insert]
    rfl
  · rw [hd]
    simp [ToDoList.lookup]
  · exact main_of_dispatch_ok hload (by rw [hd]) hbuf

/-- Witness for C13: `add buy milk` on a zero-length storage file. -/
theorem add_on_empty_storage_witness :
    (emptyFileWorld.ReadFile = .notExist ∨ emptyFileWorld.ReadFile = .data []) ∧
    load emptyFileWorld = .ok ⟨some ∅⟩ ∧
    (main emptyFileWorld ["add", "buy milk"]).stdout = ["Task added successfully (ID: 1)\n"] ∧
    ∃ t' : ToDoList,
      (dispatch ⟨some ∅⟩ ["add", "buy milk"] emptyFileWorld.Now
        emptyFileWorld.rangeOrder).toDoList = t' ∧
      (dispatch ⟨some ∅⟩ ["add", "buy milk"] emptyFileWorld.Now
        emptyFileWorld.rangeOrder).exit = .ok ∧
      t'.keys = {1} ∧
      t'.lookup 1 = some ⟨"buy milk", Todo, emptyFileWorld.Now 0, emptyFileWorld.Now 1⟩ ∧
      ∀ buf, emptyFileWorld.Marshal t' = .ok buf →
        (main emptyFileWorld ["add", "buy milk"]).written = some buf ∧
        (emptyFileWorld.WriteFile buf = none →
          (main emptyFileWorld ["add", "buy milk"]).exit = .ok) :=
  ⟨Or.inr rfl, add_on_empty_storage emptyFileWorld "buy milk" (Or.inr rfl)⟩

/-- C14: if every identifier of the collection is strictly positive and every
status is one of `Todo`, `InProgress`, `Done`, the same holds of the collection
the command switch leaves, for every command line (accepted or not). -/
theorem wellFormed_preserved (t : ToDoList) (argv : List String) (now : Nat → Time)
    (order : List Int) (hwf : t.WellFormed) :
    (dispatch t argv now order).toDoList.WellFormed := by
  have hold := (wellFormed_iff t).1 hwf
  have hset : ∀ (id : Int) (v : Task) (t' : ToDoList), id ∈ t.keys →
      t.set id v = .ok t' →
      (v.Status = (t.get id).Status ∨ v.Status = InProgress ∨ v.Status = Done) →
      t'.WellFormed := by
    intro id v t' hid hs hv
    rw [wellFormed_iff]
    intro k u hu
    rw [lookup_set hs k] at hu
    split_ifs at hu with hk
    · simp only [Option.some.injEq] at hu
      subst hu
      subst hk
      obtain ⟨hpos, hst⟩ := hwf k hid
      refine ⟨hpos, ?_⟩
      rcases hv with hv | hv | hv
      · rw [hv]; exact hst
      · exact Or.inr (Or.inl hv)
      · exact Or.inr (Or.inr hv)
    · exact hold k u hu
  rcases dispatch_cases t argv now order with h | ⟨d, out, h⟩ | ⟨id, d, hid, h⟩ | ⟨id, -, h⟩ |
    ⟨id, hid, h⟩ | ⟨id, hid, h⟩
  · rw [h]; exact hwf
  · obtain ⟨n, hpos, hn⟩ := lookup_Add_pos h
    rw [wellFormed_iff]
    intro k u hu
    rw [hn k] at hu
    split_ifs at hu with hk
    · simp only [Option.some.injEq] at hu
      subst hu
      subst hk
      exact ⟨by omega, Or.inl rfl⟩
    · exact hold k u hu
  · exact hset id _ _ hid h (Or.inl rfl)
  · rw [h, wellFormed_iff]
    intro k u hu
    rw [lookup_Delete] at hu
    split_ifs at hu with hk
    · exact hold k u hu
  · exact hset id _ _ hid h (Or.inr (Or.inl rfl))
  · exact hset id _ _ hid h (Or.inr (Or.inr rfl))

/-- Witness for C14: `mark-done 1` on the three-task example. -/
theorem wellFormed_preserved_witness :
    exampleThree.WellFormed ∧
    (dispatch exampleThree ["mark-done", "1"] (fun _ => 0) []).exit = .ok ∧
    (dispatch exampleThree ["mark-done", "1"] (fun _ => 0) []).toDoList.WellFormed :=
  ⟨by decide, by decide,
    wellFormed_preserved exampleThree ["mark-done", "1"] (fun _ => 0) [] (by decide)⟩

/-- C15: on every initialised collection `Add` succeeds and changes nothing but
one entry: the identifier `n` it assigns was free, the key set becomes the old
one plus `n` (one larger), every other identifier keeps its entry, and `n`
holds the given description with status `Todo`. -/
theorem add_frame (m : TaskMap) (description : String) (now₁ now₂ : Time) :
    ∃ (n : Int) (t' : ToDoList),
      ToDoList.Add ⟨some m⟩ description now₁ now₂ =
        .ok (t', "Task added successfully (ID: " ++ toString n ++ ")\n") ∧
      n ∉ m ∧
      t'.keys = insert n m.keys ∧
      t'.keys.card = m.keys.card + 1 ∧
      (∀ k : Int, k ≠ n → t'.lookup k = m.lookup k) ∧
      (∀ k : Int, k ∈ m → t'.lookup k = m.lookup k) ∧
      t'.lookup n = some ⟨description, Todo, now₁, now₂⟩ := by
  obtain ⟨-, g2, -⟩ := scan_spec ⟨some m⟩ 1
  have hfree : (ToDoList.mk (some m)).scan 1 ∉ m := fun hm => g2 ((keys_some m _).2 hm)
  have hkeys : (ToDoList.mk (some (m.insert ((ToDoList.mk (some m)).scan 1)
      ⟨description, Todo, now₁, now₂⟩))).keys = insert ((ToDoList.mk (some m)).scan 1) m.keys :=
    keys_insert m _ _
  have hne : ∀ k : Int, k ≠ (ToDoList.mk (some m)).scan 1 →
      (ToDoList.mk (some (m.insert ((ToDoList.mk (some m)).scan 1)
        ⟨description, Todo, now₁, now₂⟩))).lookup k = m.lookup k := by
    intro k hk
    simp [ToDoList.lookup, Finmap.lookup_insert_of_ne _ hk]
  refine ⟨(ToDoList.mk (some m)).scan 1, _, Add_some m description now₁ now₂, hfree, hkeys,
    ?_, hne, fun k hk => hne k ?_, ?_⟩
  · rw [hkeys, Finset.card_insert_of_not_mem]
    rwa [Finmap.mem_keys]
  · rintro rfl
    exact hfree hk
  · simp [ToDoList.lookup]

/-- C16: after `Delete` of an existing identifier `id ≥ 1`, `Add` assigns an
identifier `n` with `1 ≤ n ≤ id`, and `n = id` when every `k` with `1 ≤ k < id`
is a key of the collection. -/
theorem add_reuses_deleted_id (t : ToDoList) (id : Int) (description : String)
    (now₁ now₂ : Time) (hid : id ∈ t.keys) (hpos : 1 ≤ id) :
    ∃ (n : Int) (t' : ToDoList),
      (t.Delete id).Add description now₁ now₂ =
        .ok (t', "Task added successfully (ID: " ++ toString n ++ ")\n") ∧
      t'.lookup n = some ⟨description, Todo, now₁, now₂⟩ ∧
      1 ≤ n ∧ n ≤ id ∧
      ((∀ k : Int, 1 ≤ k → k < id → k ∈ t.keys) → n = id) := by
  obtain ⟨m, rfl, hm⟩ := tasks_of_mem_keys hid
  have hdel : (ToDoList.mk (some m)).Delete id = ⟨some (m.erase id)⟩ := rfl
  obtain ⟨g1, g2, g3⟩ := scan_spec ⟨some (m.erase id)⟩ 1
  have hgone : id ∉ (ToDoList.mk (some (m.erase id))).keys := by
    simp [ToDoList.keys, Finmap.mem_keys, Finmap.mem_erase]
  have hle : (ToDoList.mk (some (m.erase id))).scan 1 ≤ id := by
    by_contra hlt
    exact hgone (g3 id hpos (by omega))
  rw [hdel]
  refine ⟨_, _, Add_some (m.erase id) description now₁ now₂, ?_, g1, hle, fun hall => ?_⟩
  · simp [ToDoList.lookup]
  · by_contra hne
    have hlt : (ToDoList.mk (some (m.erase id))).scan 1 < id := lt_of_le_of_ne hle hne
    apply g2
    have := hall _ g1 hlt
    simp only [ToDoList.keys, Finmap.mem_keys, Finmap.mem_erase] at this ⊢
    exact ⟨hne, this⟩

/-- Witness for C16: deleting task 2 of `{1, 2, 3}` and adding again. -/
theorem add_reuses_deleted_id_witness :
    (2 : Int) ∈ exampleThree.keys ∧ (1 : Int) ≤ 2 ∧
    ∃ (n : Int) (t' : ToDoList),
      (exampleThree.Delete 2).Add "d" 5 6 =
        .ok (t', "Task added successfully (ID: " ++ toString n ++ ")\n") ∧
      t'.lookup n = some ⟨"d", Todo, 5, 6⟩ ∧
      1 ≤ n ∧ n ≤ 2 ∧
      ((∀ k : Int, 1 ≤ k → k < 2 → k ∈ exampleThree.keys) → n = 2) :=
  ⟨by decide, by decide, add_reuses_deleted_id exampleThree 2 "d" 5 6 (by decide) (by decide)⟩

/-- C17, the code at the failing input: `Add` on the nil map panics; a storage
file holding `\x7b\x7d` loads as the nil map, and `add x` on it ends in the
panic `assignment to entry in nil map`, printing nothing and never reaching
`os.WriteFile`. -/
theorem add_after_braces_panics :
    (∀ (description : String) (now₁ now₂ : Time),
      ToDoList.Add ⟨none⟩ description now₁ now₂ = .error "assignment to entry in nil map") ∧
    load bracesWorld = .ok ⟨none⟩ ∧
    (main bracesWorld ["add", "x"]).exit = .panic "assignment to entry in nil map" ∧
    (main bracesWorld ["add", "x"]).stdout = [] ∧
    (main bracesWorld ["add", "x"]).written = none := by
  have hload : load bracesWorld = .ok ⟨none⟩ := rfl
  have hd : dispatch ⟨none⟩ ["add", "x"] bracesWorld.Now bracesWorld.rangeOrder =
      ⟨.panic "assignment to entry in nil map", ⟨none⟩, []⟩ := by
    simp [dispatch, Add_nil]
  refine ⟨Add_nil, hload, ?_, ?_, ?_⟩
  · simp [main, hload, hd]
  · rw [main_stdout hload, hd]
  · simp [main, hload, hd]

/-- C18: on every initialised collection the scan of `Add` ends (the scan is a
total function) and the identifier `n` assigned satisfies `1 ≤ n ≤ size + 1`,
with `n = size + 1` exactly when all of `1, ..., size` are keys. -/
theorem add_id_bounded (m : TaskMap) (description : String) (now₁ now₂ : Time) :
    ∃ (n : Int) (t' : ToDoList),
      ToDoList.Add ⟨some m⟩ description now₁ now₂ =
        .ok (t', "Task added successfully (ID: " ++ toString n ++ ")\n") ∧
      t'.lookup n = some ⟨description, Todo, now₁, now₂⟩ ∧
      1 ≤ n ∧ n ≤ (m.keys.card : Int) + 1 ∧
      (n = (m.keys.card : Int) + 1 ↔ ∀ k : Int, 1 ≤ k → k ≤ (m.keys.card : Int) → k ∈ m) := by
  obtain ⟨g1, g2, g3⟩ := scan_spec ⟨some m⟩ 1
  have hle : (ToDoList.mk (some m)).scan 1 ≤ (m.keys.card : Int) + 1 :=
    scan_le_card_succ ⟨some m⟩
  refine ⟨_, _, Add_some m description now₁ now₂, ?_, g1, hle, ?_, ?_⟩
  · simp [ToDoList.lookup]
  · intro heq k hk1 hk2
    exact (keys_some m k).1 (g3 k hk1 (by omega))
  · intro hall
    by_contra hne
    exact g2 ((keys_some m _).2 (hall _ g1 (by omega)))

end TaskTracker
